import Mathlib

/-!
Verification of the two log-parsing pipelines of the repository
(`src/ufwlog.py`, a token-split key/value decoder, and `src/modsec_s.py`,
a sequential multi-pattern streaming matcher).

The Python sources are shallowly embedded here:
* Python dictionaries become association lists `List (String × α)` with
  insertion-order-preserving update (`dictSet`), matching CPython dict
  semantics (assignment to an existing key keeps its position, a new key
  is appended at the end).
* Python/JSON values become the inductive type `PyVal`.
* The Python string operations used by the sources (`str.split` with a
  one-character separator, `str.lstrip`, `str.strip`, `str.replace` with
  an empty replacement, `str.startswith`/`str.endswith` with a
  one-character argument, `str.splitlines` on newline-separated text)
  are implemented over the character list `String.data`, so that every
  definition evaluates by kernel reduction.
* External collaborators that are not part of this repository (the
  `json` module, `jc.utils`, `jc.streaming`) are either modelled from
  the specification's stated contract, or abstracted as an explicit
  function parameter; each such definition says so in its doc comment.
-/

/-- A Python/JSON run-time value, as used by the two parsers: strings,
integers, booleans, `None`, lists and (string-keyed) dictionaries. -/
inductive PyVal : Type where
  | str : String → PyVal
  | int : Int → PyVal
  | bool : Bool → PyVal
  | null : PyVal
  | list : List PyVal → PyVal
  | dict : List (String × PyVal) → PyVal

/-- Lookup of the first entry with the given key in an association list
(for the Python dicts modelled here keys are unique, so this is dict
subscription). -/
def alookup {α : Type} : List (String × α) → String → Option α
  | [], _ => none
  | kv :: rest, k => if kv.1 = k then some kv.2 else alookup rest k

/-- Python dict assignment `d[k] = v`: if the key is present its value is
rewritten in place (keeping its position), otherwise the pair is appended
at the end. -/
def dictSet {α : Type} (l : List (String × α)) (k : String) (v : α) :
    List (String × α) :=
  if (alookup l k).isSome then
    l.map (fun kv => if kv.1 = k then (k, v) else kv)
  else l ++ [(k, v)]

/-- The key set of an association list. -/
def keysOf {α : Type} (l : List (String × α)) : Finset String :=
  (l.map Prod.fst).toFinset

/-- Python `k in d`. -/
def containsKey {α : Type} (l : List (String × α)) (k : String) : Bool :=
  (alookup l k).isSome

/-- Splitting a character list at every occurrence of a separator
character; empty chunks are kept.  This is CPython
`str.split(sep)` for a one-character `sep` (so `""` yields one empty
chunk, and `"a=b=c"` on `=` yields three chunks). -/
def splitCharList (sep : Char) : List Char → List (List Char)
  | [] => [[]]
  | c :: rest =>
    match splitCharList sep rest with
    | [] => [[]]
    | g :: gs => if c = sep then [] :: g :: gs else (c :: g) :: gs

/-- Python `s.split(sep)` for a one-character separator. -/
def pySplit (sep : Char) (s : String) : List String :=
  (splitCharList sep s.data).map String.mk

/-- Python `s.lstrip()`. -/
def pyLstrip (s : String) : String :=
  String.mk (s.data.dropWhile Char.isWhitespace)

/-- Python `s.strip()`. -/
def pyStrip (s : String) : String :=
  String.mk (((s.data.dropWhile Char.isWhitespace).reverse.dropWhile
    Char.isWhitespace).reverse)

/-- Python `s.replace(String.mk [c], "")`: every occurrence of the
character `c` is removed. -/
def removeChar (c : Char) (s : String) : String :=
  String.mk (s.data.filter (fun d => d != c))

/-- Python `s.startswith(c)` for a one-character argument. -/
def pyStartsWith (c : Char) (s : String) : Bool :=
  match s.data with
  | [] => false
  | d :: _ => d = c

/-- Python `s.endswith(c)` for a one-character argument. -/
def pyEndsWith (c : Char) (s : String) : Bool :=
  match s.data.getLast? with
  | none => false
  | some d => d = c

/-- Python `str.splitlines` for newline-separated text (the Python
version also recognises other line terminators; every input considered
here uses only the newline character).  A trailing newline does not
produce a trailing empty line. -/
def splitlines (s : String) : List String :=
  if s = "" then []
  else
    let parts := pySplit '\n' s
    if parts.getLast? = some "" then parts.dropLast else parts

/-- Models `jc.utils.has_data` (external helper): a string counts as
data when it has at least one non-whitespace character. -/
def has_data (s : String) : Bool :=
  s.data.any (fun c => !c.isWhitespace)

/-- Decimal-digit accumulator for `pyToInt`. -/
def decDigitsAux : List Char → Nat → Option Nat
  | [], acc => some acc
  | c :: rest, acc =>
    if c.isDigit then decDigitsAux rest (acc * 10 + (c.toNat - 48)) else none

/-- Modelled from the spec: the integer coercion contract of the external
helper `jc.utils.convert_to_int` on strings — a decimal string
(optionally negated) converts to the integer it denotes, anything else is
unconvertible (the helper's float fallback is not modelled; no claim
exercises it). -/
def pyToInt (s : String) : Option Int :=
  match s.data with
  | [] => none
  | '-' :: rest =>
    if rest = [] then none
    else (decDigitsAux rest 0).map (fun n => -(n : Int))
  | cs => (decDigitsAux cs 0).map (fun n => (n : Int))

namespace Ufwlog

/-- `field.startswith("[") or field.endswith("]")` from `Convert` in
`src/ufwlog.py`. -/
def isBracketTok (t : String) : Bool :=
  pyStartsWith '[' t || pyEndsWith ']' t

/-- `field.replace('[', '').replace(']', '')` from `Convert`. -/
def stripBrackets (t : String) : String :=
  removeChar ']' (removeChar '[' t)

/-- `res_dct["type"]` read access inside `Convert`.  In every record
built by `Convert` the key `type` is present (it is installed by the
initialiser `{ "type": "" }` and never removed), so the default is
unreachable there. -/
def typeOf (d : List (String × String)) : String :=
  (alookup d "type").getD ""

/-- One iteration of the token loop of `Convert` in `src/ufwlog.py`:
a token splitting into exactly two pieces on `=` becomes a key/value
field; otherwise a token starting with `[` or ending with `]` is
accumulated (bracket-stripped, space-joined, left-trimmed) into the
`type` field; any other token becomes a flag field with empty value. -/
def convertStep (d : List (String × String)) (field : String) :
    List (String × String) :=
  match pySplit '=' field with
  | [label, value] => dictSet d label value
  | _ =>
    if isBracketTok field then
      dictSet d "type" (pyLstrip (typeOf d ++ " " ++ stripBrackets field))
    else dictSet d field ""

/-- `Convert` from `src/ufwlog.py`: fold the token classifier over the
whitespace-split tokens, starting from `{ "type": "" }`.  (The
`try/except` wrapper of the source cannot fire on string input: no
statement in the loop raises for string tokens.) -/
def Convert (lst : List String) : List (String × String) :=
  lst.foldl convertStep [("type", "")]

/-- Outcome of `is_json(line)` / `json.loads(line)` on one input line
(`json` is an external module): either the line is not valid JSON, or it
decodes to a JSON object (a Python dict), or it decodes to a non-object
JSON value. -/
inductive JEnv : Type where
  | notJson : JEnv
  | obj : List (String × PyVal) → JEnv
  | nonObj : PyVal → JEnv

/-- A `Convert` result embedded as a Python dict value. -/
def strRecord (l : List (String × String)) : PyVal :=
  PyVal.dict (l.map (fun kv => (kv.1, PyVal.str kv.2)))

/-- The body of the per-line `try` block of `parse` in `src/ufwlog.py`,
for a given JSON-envelope classification `cls` of the line (which models
`is_json` plus `json.loads`): a non-JSON line goes through `Convert`
directly; a JSON object has its `message` value token-decoded and nested
back; a line whose JSON value is not an object, or an object without a
string `message`, raises (`KeyError` subscripting the missing key,
`AttributeError`/`TypeError` otherwise). -/
def processLine (cls : String → JEnv) (line : String) : Except String PyVal :=
  match cls line with
  | JEnv.notJson => Except.ok (strRecord (Convert (pySplit ' ' line)))
  | JEnv.obj fields =>
    match alookup fields "message" with
    | some (PyVal.str m) =>
      Except.ok (PyVal.dict
        (dictSet fields "message" (strRecord (Convert (pySplit ' ' m)))))
    | some _ => Except.error "AttributeError: split"
    | none => Except.error "KeyError: message"
  | JEnv.nonObj _ => Except.error "TypeError: not subscriptable"

/-- The line loop of `parse` in `src/ufwlog.py`: each line is processed
inside `try`, and `except Exception as e: print(e)` swallows any per-line
failure — the failing line contributes no record and the loop continues. -/
def ufwlogFold (cls : String → JEnv) : List String → List PyVal
  | [] => []
  | l :: rest =>
    match processLine cls l with
    | Except.ok r => r :: ufwlogFold cls rest
    | Except.error _ => ufwlogFold cls rest

/-- The line source of `parse` in `src/ufwlog.py`:
`if jc.utils.has_data(data): for line in filter(None, data.splitlines())`.
`filter(None, ...)` drops exactly the empty lines (a whitespace-only
line is truthy and is kept). -/
def ufwlogLines (data : String) : List String :=
  if has_data data then (splitlines data).filter (fun l => l != "") else []

/-- `_process` from `src/ufwlog.py`: it returns its input unchanged. -/
def uProcess (proc_data : List PyVal) : List PyVal := proc_data

/-- `parse` from `src/ufwlog.py` (the compatibility/type checks on the
input string are side-effect-free for the string inputs considered
here): split the data into non-empty lines, decode each line, swallow
per-line failures, and return the raw output or `_process` of it. -/
def ufwlogParse (cls : String → JEnv) (raw : Bool) (data : String) :
    List PyVal :=
  let raw_output := ufwlogFold cls (ufwlogLines data)
  if raw then raw_output else uProcess raw_output

end Ufwlog

namespace ModsecS

/-- One compiled pattern of `src/modsec_s.py`, abstracted as the
function taking a line to `groupdict()` of its `re.match` result —
`none` when the pattern does not match, otherwise the named captures
(a group that did not participate maps to `PyVal.null`). -/
def MPattern : Type := String → Option (List (String × PyVal))

/-- Python `dict1 | dict2` (as in `output_line | clf_match.groupdict()`):
right operand's entries update or append into the left. -/
def dictUnion (a b : List (String × PyVal)) : List (String × PyVal) :=
  b.foldl (fun d kv => dictSet d kv.1 kv.2) a

/-- One iteration of the pattern loop of `parse` in `src/modsec_s.py`:
`if clf_match: output_line = output_line | clf_match.groupdict()`. -/
def mstep (s : String) (acc : List (String × PyVal)) (p : MPattern) :
    List (String × PyVal) :=
  match p s with
  | some gd => dictUnion acc gd
  | none => acc

/-- The pattern loop of `parse` in `src/modsec_s.py`: every pattern is
matched, in list order, against the same line, and each successful
match's groupdict is merged into the accumulating record with
right-biased (later pattern wins) union; the accumulator starts empty. -/
def mergeMatches (ps : List MPattern) (s : String) : List (String × PyVal) :=
  ps.foldl (mstep s) []

/-- `int_list` from `_process` in `src/modsec_s.py`. -/
def int_list : List String :=
  ["day", "year", "hour", "minute", "second", "status", "bytes", "pid",
   "line"]

/-- Models the external helper `jc.utils.convert_to_int` per the spec's
contract: integers (and booleans, which Python treats as integers) pass
through, decimal strings convert, anything unconvertible becomes null. -/
def convert_to_int : PyVal → PyVal
  | PyVal.int n => PyVal.int n
  | PyVal.bool b => PyVal.int (if b then 1 else 0)
  | PyVal.str s =>
    match pyToInt s with
    | some n => PyVal.int n
    | none => PyVal.null
  | _ => PyVal.null

/-- `val == '-' or val == ''` from `_process` in `src/modsec_s.py`. -/
def isDashOrEmpty : PyVal → Bool
  | PyVal.str s => s == "-" || s == ""
  | _ => false

/-- One iteration of the normalization loop of `_process` in
`src/modsec_s.py`: keys in `int_list` get their value coerced to an
integer, and a value that was exactly `-` or the empty string becomes
null (the dash/empty test reads the original value, so it wins over the
integer coercion). -/
def procEntry (kv : String × PyVal) : String × PyVal :=
  (kv.1,
    if isDashOrEmpty kv.2 then PyVal.null
    else if int_list.contains kv.1 then convert_to_int kv.2
    else kv.2)

/-- `_process` from `src/modsec_s.py`, with the external
`jc.utils.timestamp` abstracted as the parameter `ts` mapping the
(post-loop) `date` value to the pair `(ts.naive, ts.utc)`: rewrite each
entry in place, then, when a `date` key is present, store the two epoch
fields. -/
def mprocess (ts : PyVal → PyVal × PyVal) (r : List (String × PyVal)) :
    List (String × PyVal) :=
  match alookup (r.map procEntry) "date" with
  | some d =>
    dictSet (dictSet (r.map procEntry) "epoch" (ts d).1) "epoch_utc" (ts d).2
  | none => r.map procEntry

/-- `apache_dict = { 'raw': line.strip() }` from `parse` in
`src/modsec_s.py`.  The source computes this dict and never uses it:
it is not merged into `output_line`. -/
def apache_dict (line : String) : List (String × PyVal) :=
  [("raw", PyVal.str (pyStrip line))]

/-- The message of the `TypeError` raised by the external
`jc.streaming.streaming_line_input_type_check` for a non-string line. -/
def lineTypeErr : String := "TypeError: Input line must be a string."

/-- The body of the per-line `try` block of `parse` in
`src/modsec_s.py`: first the line type check (a non-string line raises),
then the blank-line skip (`if not line.strip(): continue`, signalled as
`ok none`), then the pattern merge and — unless raw mode — `_process`.
The dead local `apache_dict` of the source is reproduced unused. -/
def modsecLine (ps : List MPattern) (rawM : Bool)
    (ts : PyVal → PyVal × PyVal) :
    PyVal → Except String (Option (List (String × PyVal)))
  | PyVal.str s =>
    if pyStrip s = "" then Except.ok none
    else
      let _ad := apache_dict s
      Except.ok (some (if rawM then mergeMatches ps s
                       else mprocess ts (mergeMatches ps s)))
  | _ => Except.error lineTypeErr

/-- The observable outcome of running the streaming generator to
exhaustion: the records it yielded, and the exception that terminated
it (`none` when it completed normally). -/
structure StreamOut where
  recs : List (List (String × PyVal))
  err : Option String

/-- A record yielded before the rest of the stream. -/
def prependRec (r : List (String × PyVal)) (o : StreamOut) : StreamOut :=
  StreamOut.mk (r :: o.recs) o.err

/-- The line loop of `parse` in `src/modsec_s.py`.  A per-line failure
reaches `raise_or_yield(ignore_exceptions, e, line)` (external
`jc.streaming` helper, modelled from the spec's propagation policy):
with `ignore_exceptions` it yields `{'unparsable': line}` and the loop
continues, without it the failure re-raises, terminating the stream. -/
def modsecRun (ps : List MPattern) (rawM ig : Bool)
    (ts : PyVal → PyVal × PyVal) : List PyVal → StreamOut
  | [] => StreamOut.mk [] none
  | line :: rest =>
    match modsecLine ps rawM ts line with
    | Except.ok none => modsecRun ps rawM ig ts rest
    | Except.ok (some r) => prependRec r (modsecRun ps rawM ig ts rest)
    | Except.error e =>
      if ig then
        prependRec [("unparsable", line)] (modsecRun ps rawM ig ts rest)
      else StreamOut.mk [] (some e)

/-- The named-capture group names of the thirteen regex patterns listed
in `parse` of `src/modsec_s.py`, in pattern order (only named groups
enter `groupdict()`). -/
def sourcePatternGroups : List (List String) :=
  [["msg_detail", "fuck"],
   ["date", "day_of_week", "month", "day", "hour", "minute", "second",
    "year", "loglevel", "pid", "client_port", "client"],
   ["file"], ["line"], ["id"], ["msg"], ["data"], ["severity"], ["ver"],
   ["hostname"], ["uri"], ["unique_id"], ["tags"]]

/-- Whether a Python value is a string. -/
def isStr : PyVal → Bool
  | PyVal.str _ => true
  | _ => false

end ModsecS

/-- A timestamp function usable as the `ts` parameter of
`ModsecS.mprocess` in concrete instances: the external
`jc.utils.timestamp` restricted to inputs whose date does not parse
(both epochs null). -/
def ts0 : PyVal → PyVal × PyVal := fun _ => (PyVal.null, PyVal.null)

/-- The thirteen source patterns of `src/modsec_s.py` restricted to
input lines that none of them matches (every pattern requires a `[` or
a `client` marker on the line, so on a line such as `hello` each
`re.match` returns `None`). -/
def psNone13 : List ModsecS.MPattern :=
  List.replicate 13 (fun _ => none)

/-- `is_json`/`json.loads` (external `json` module) restricted to input
lines that are not valid JSON (such as `a=1`, `flag`, or whitespace):
`json.loads` raises `ValueError` on them. -/
def clsPlain : String → Ufwlog.JEnv := fun _ => Ufwlog.JEnv.notJson

/-- The JSON line `\x7b"a": 1\x7d` — a JSON object with the single key
`a` and no `message` key. -/
def jline : String := "\x7b\"a\": 1\x7d"

/-- `is_json`/`json.loads` (external `json` module) on inputs that are
either the JSON object line `jline` (which decodes to a dict with the
single key `a`) or not valid JSON at all. -/
def clsObjA : String → Ufwlog.JEnv := fun l =>
  if l = jline then Ufwlog.JEnv.obj [("a", PyVal.int 1)]
  else Ufwlog.JEnv.notJson

/-- Whether a Python value is an integer or `None` (the shape of the two
epoch values produced by the external `jc.utils.timestamp`). -/
def intOrNull : PyVal → Bool
  | PyVal.int _ => true
  | PyVal.null => true
  | _ => false

namespace Ufwlog

/-- The tokens that the loop of `Convert` accumulates into `type`: split
length on `=` different from two, and bracket-shaped. -/
def isTypeAcc (t : String) : Bool :=
  ((pySplit '=' t).length != 2) && isBracketTok t

/-- The tokens whose classification in `Convert` writes the key `type`
directly (rather than accumulating): a `type=value` token, or a bare
non-bracket flag token that is exactly `type`. -/
def typeWriter (t : String) : Bool :=
  match pySplit '=' t with
  | [l, _] => l == "type"
  | _ => !isBracketTok t && t == "type"

/-- The bracket-stripping, space-joining, left-trimming accumulation of
`Convert` over a token list, from a given initial `type` value. -/
def typeAccum (init : String) (toks : List String) : String :=
  toks.foldl (fun acc t => pyLstrip (acc ++ " " ++ stripBrackets t)) init

end Ufwlog

section AssocKit

variable {α : Type}

theorem alookup_append_some {l1 l2 : List (String × α)} {k : String}
    {v : α} (h : alookup l1 k = some v) : alookup (l1 ++ l2) k = some v := by
  induction l1 with
  | nil => simp [alookup] at h
  | cons kv rest ih =>
    by_cases hk : kv.1 = k
    · simp [alookup, hk] at h ⊢
      exact h
    · simp [alookup, hk] at h ⊢
      exact ih h

theorem alookup_append_none {l1 l2 : List (String × α)} {k : String}
    (h : alookup l1 k = none) : alookup (l1 ++ l2) k = alookup l2 k := by
  induction l1 with
  | nil => rfl
  | cons kv rest ih =>
    by_cases hk : kv.1 = k
    · simp [alookup, hk] at h
    · simp [alookup, hk] at h ⊢
      exact ih h

theorem alookup_map_set {l : List (String × α)} {k : String} {v : α} :
    alookup (l.map (fun kv => if kv.1 = k then (k, v) else kv)) k =
      (alookup l k).map (fun _ => v) := by
  induction l with
  | nil => rfl
  | cons kv rest ih =>
    by_cases hk : kv.1 = k
    · simp [alookup, hk]
    · simp [alookup, hk]
      exact ih

theorem alookup_dictSet_self (l : List (String × α)) (k : String) (v : α) :
    alookup (dictSet l k v) k = some v := by
  unfold dictSet
  by_cases h : (alookup l k).isSome
  · rw [if_pos h, alookup_map_set]
    rcases ho : alookup l k with _ | w
    · rw [ho] at h; simp at h
    · simp
  · rw [if_neg h]
    rcases ho : alookup l k with _ | w
    · rw [alookup_append_none ho]
      simp [alookup]
    · rw [ho] at h; simp at h

theorem alookup_map_set_ne {l : List (String × α)} {k' k : String}
    (hne : k' ≠ k) (v : α) :
    alookup (l.map (fun kv => if kv.1 = k' then (k', v) else kv)) k =
      alookup l k := by
  induction l with
  | nil => rfl
  | cons kv rest ih =>
    by_cases hk : kv.1 = k'
    · have h1 : ¬((k', v).1 = k) := hne
      have h2 : ¬(kv.1 = k) := by rw [hk]; exact hne
      simp only [List.map_cons, if_pos hk, alookup, h1, if_false, h2]
      exact ih
    · simp only [List.map_cons, if_neg hk, alookup]
      by_cases h2 : kv.1 = k
      · simp [h2]
      · simp only [h2, if_false]
        exact ih

theorem alookup_dictSet_ne {l : List (String × α)} {k' k : String}
    (hne : k' ≠ k) (v : α) : alookup (dictSet l k' v) k = alookup l k := by
  unfold dictSet
  by_cases h : (alookup l k').isSome
  · rw [if_pos h]
    exact alookup_map_set_ne hne v
  · rw [if_neg h]
    rcases ho : alookup l k with _ | w
    · rw [alookup_append_none ho]
      simp [alookup, ho, hne]
    · exact alookup_append_some ho

theorem alookup_some_exists {l : List (String × α)} {k : String} {v : α}
    (h : alookup l k = some v) : ∃ p ∈ l, p.1 = k ∧ p.2 = v := by
  induction l with
  | nil => simp [alookup] at h
  | cons kv rest ih =>
    by_cases hk : kv.1 = k
    · simp [alookup, hk] at h
      exact ⟨kv, by simp, hk, h⟩
    · simp only [alookup, hk, if_false] at h
      obtain ⟨p, hp, h1, h2⟩ := ih h
      exact ⟨p, by simp [hp], h1, h2⟩

theorem alookup_none_forall {l : List (String × α)} {k : String}
    (h : alookup l k = none) : ∀ p ∈ l, p.1 ≠ k := by
  induction l with
  | nil => simp
  | cons kv rest ih =>
    by_cases hk : kv.1 = k
    · simp [alookup, hk] at h
    · simp only [alookup, hk, if_false] at h
      intro p hp
      rcases List.mem_cons.mp hp with h1 | h1
      · rw [h1]; exact hk
      · exact ih h p h1

theorem mem_dictSet {l : List (String × α)} {k : String} {v : α}
    {p : String × α} (h : p ∈ dictSet l k v) :
    p = (k, v) ∨ (p ∈ l ∧ p.1 ≠ k) := by
  unfold dictSet at h
  by_cases hs : (alookup l k).isSome
  · rw [if_pos hs] at h
    obtain ⟨kv, hkv, he⟩ := List.mem_map.mp h
    by_cases hk : kv.1 = k
    · left; rw [← he, if_pos hk]
    · right; rw [← he, if_neg hk]; exact ⟨hkv, hk⟩
  · rw [if_neg hs] at h
    rcases List.mem_append.mp h with h1 | h1
    · right
      refine ⟨h1, ?_⟩
      rcases ho : alookup l k with _ | w
      · exact alookup_none_forall ho p h1
      · rw [ho] at hs; simp at hs
    · left; simpa using h1

theorem map_id_of_mem {β : Type} {f : β → β} :
    ∀ {l : List β}, (∀ x ∈ l, f x = x) → l.map f = l := by
  intro l
  induction l with
  | nil => intro _; rfl
  | cons x rest ih =>
    intro h
    simp only [List.map_cons]
    rw [h x (by simp), ih (fun y hy => h y (by simp [hy]))]

theorem dictSet_eq_self {l : List (String × α)} {k : String} {v : α}
    (hs : (alookup l k).isSome) (hall : ∀ p ∈ l, p.1 = k → p.2 = v) :
    dictSet l k v = l := by
  unfold dictSet
  rw [if_pos hs]
  apply map_id_of_mem
  intro kv hkv
  by_cases hk : kv.1 = k
  · rw [if_pos hk]
    have : kv.2 = v := hall kv hkv hk
    rw [← hk, ← this]
  · rw [if_neg hk]

theorem alookup_isSome_dictSet {l : List (String × α)} {k k' : String}
    {v : α} (h : (alookup l k).isSome) :
    (alookup (dictSet l k' v) k).isSome := by
  by_cases he : k' = k
  · subst he; rw [alookup_dictSet_self]; rfl
  · rw [alookup_dictSet_ne he]; exact h

theorem keysOf_dictSet (l : List (String × α)) (k : String) (v : α) :
    keysOf (dictSet l k v) = insert k (keysOf l) := by
  unfold dictSet
  by_cases hs : (alookup l k).isSome
  · rw [if_pos hs]
    have hmap : (l.map (fun kv => if kv.1 = k then (k, v) else kv)).map
        Prod.fst = l.map Prod.fst := by
      rw [List.map_map]
      apply List.map_congr_left
      intro kv _
      by_cases hk : kv.1 = k
      · simp [hk]
      · simp [hk]
    have hk : k ∈ keysOf l := by
      rcases ho : alookup l k with _ | w
      · rw [ho] at hs; simp at hs
      · obtain ⟨p, hp, h1, _⟩ := alookup_some_exists ho
        unfold keysOf
        rw [List.mem_toFinset]
        exact h1 ▸ List.mem_map_of_mem Prod.fst hp
    unfold keysOf
    rw [hmap]
    exact (Finset.insert_eq_self.mpr hk).symm
  · rw [if_neg hs]
    unfold keysOf
    rw [List.map_append, List.toFinset_append]
    simp [Finset.union_comm, Finset.insert_eq]

end AssocKit

namespace Ufwlog

theorem convertStep_eq_kv {t l v : String} {d : List (String × String)}
    (hsp : pySplit '=' t = [l, v]) : convertStep d t = dictSet d l v := by
  unfold convertStep
  rw [hsp]

theorem convertStep_eq_acc {t : String} {d : List (String × String)}
    (h2 : (pySplit '=' t).length ≠ 2) (hbr : isBracketTok t = true) :
    convertStep d t =
      dictSet d "type" (pyLstrip (typeOf d ++ " " ++ stripBrackets t)) := by
  unfold convertStep
  rcases hsp : pySplit '=' t with _ | ⟨a, _ | ⟨b, _ | ⟨c, tl⟩⟩⟩
  · simp [hbr]
  · simp [hbr]
  · rw [hsp] at h2; simp at h2
  · simp [hbr]

theorem convertStep_eq_flag {t : String} {d : List (String × String)}
    (h2 : (pySplit '=' t).length ≠ 2) (hbr : isBracketTok t = false) :
    convertStep d t = dictSet d t "" := by
  unfold convertStep
  rcases hsp : pySplit '=' t with _ | ⟨a, _ | ⟨b, _ | ⟨c, tl⟩⟩⟩
  · simp [hbr]
  · simp [hbr]
  · rw [hsp] at h2; simp at h2
  · simp [hbr]

theorem typeWriter_kv {t a b : String} (hsp : pySplit '=' t = [a, b]) :
    typeWriter t = (a == "type") := by
  unfold typeWriter
  rw [hsp]

theorem typeWriter_other {t : String}
    (h2 : (pySplit '=' t).length ≠ 2) :
    typeWriter t = (!isBracketTok t && t == "type") := by
  unfold typeWriter
  rcases hsp : pySplit '=' t with _ | ⟨a, _ | ⟨b, _ | ⟨c, tl⟩⟩⟩
  · rfl
  · rfl
  · rw [hsp] at h2; simp at h2
  · rfl

theorem pySplit_two_of_length {t : String}
    (h : (pySplit '=' t).length = 2) : ∃ a b, pySplit '=' t = [a, b] := by
  rcases hsp : pySplit '=' t with _ | ⟨a, _ | ⟨b, _ | ⟨c, tl⟩⟩⟩ <;>
    rw [hsp] at h <;> simp at h
  exact ⟨a, b, rfl⟩

theorem convertStep_isSome {d : List (String × String)} {k : String}
    (t : String) (h : (alookup d k).isSome) :
    (alookup (convertStep d t) k).isSome := by
  by_cases h2 : (pySplit '=' t).length = 2
  · obtain ⟨a, b, hsp⟩ := pySplit_two_of_length h2
    rw [convertStep_eq_kv hsp]
    exact alookup_isSome_dictSet h
  · by_cases hbr : isBracketTok t
    · rw [convertStep_eq_acc h2 hbr]
      exact alookup_isSome_dictSet h
    · rw [convertStep_eq_flag h2 (Bool.not_eq_true _ ▸ hbr)]
      exact alookup_isSome_dictSet h

theorem foldl_convertStep_isSome {lst : List String}
    {d : List (String × String)} {k : String}
    (h : (alookup d k).isSome) :
    (alookup (lst.foldl convertStep d) k).isSome := by
  induction lst generalizing d with
  | nil => exact h
  | cons t rest ih => exact ih (convertStep_isSome t h)

theorem foldl_convertStep_type {lst : List String} :
    ∀ {d : List (String × String)} {s : String},
    alookup d "type" = some s →
    (∀ t ∈ lst, typeWriter t = false) →
    alookup (lst.foldl convertStep d) "type" =
      some (typeAccum s (lst.filter isTypeAcc)) := by
  induction lst with
  | nil =>
    intro d s hd _
    simpa [typeAccum] using hd
  | cons t rest ih =>
    intro d s hd hw
    have hwt := hw t (by simp)
    have hwr : ∀ u ∈ rest, typeWriter u = false :=
      fun u hu => hw u (by simp [hu])
    rw [List.foldl_cons]
    by_cases h2 : (pySplit '=' t).length = 2
    · obtain ⟨a, b, hsp⟩ := pySplit_two_of_length h2
      have ha : a ≠ "type" := by
        rw [typeWriter_kv hsp] at hwt
        simpa using hwt
      have hacc : isTypeAcc t = false := by
        simp [isTypeAcc, hsp]
      rw [convertStep_eq_kv hsp, List.filter_cons, hacc]
      simp only [Bool.false_eq_true, if_false]
      exact ih (by rw [alookup_dictSet_ne ha]; exact hd) hwr
    · by_cases hbr : isBracketTok t
      · have hacc : isTypeAcc t = true := by
          simp [isTypeAcc, hbr, h2]
        rw [convertStep_eq_acc h2 hbr, List.filter_cons, hacc]
        simp only [if_true]
        have htd : typeOf d = s := by
          unfold typeOf; rw [hd]; rfl
        rw [htd]
        have : typeAccum s (t :: rest.filter isTypeAcc) =
            typeAccum (pyLstrip (s ++ " " ++ stripBrackets t))
              (rest.filter isTypeAcc) := rfl
        rw [this]
        exact ih (alookup_dictSet_self d "type" _) hwr
      · have hbr' : isBracketTok t = false := Bool.not_eq_true _ ▸ hbr
        have ht : t ≠ "type" := by
          rw [typeWriter_other h2, hbr'] at hwt
          simpa using hwt
        have hacc : isTypeAcc t = false := by
          simp [isTypeAcc, hbr']
        rw [convertStep_eq_flag h2 hbr', List.filter_cons, hacc]
        simp only [Bool.false_eq_true, if_false]
        exact ih (by rw [alookup_dictSet_ne ht]; exact hd) hwr

end Ufwlog

namespace ModsecS

theorem dictUnion_alookup_none {gd : List (String × PyVal)} {x : String} :
    ∀ {d : List (String × PyVal)}, alookup gd x = none →
    alookup (dictUnion d gd) x = alookup d x := by
  induction gd with
  | nil => intro d _; rfl
  | cons kv rest ih =>
    intro d h
    by_cases hk : kv.1 = x
    · simp [alookup, hk] at h
    · simp only [alookup, hk, if_false] at h
      show alookup (dictUnion (dictSet d kv.1 kv.2) rest) x = alookup d x
      rw [ih h, alookup_dictSet_ne hk]

theorem dictUnion_alookup_last {gd : List (String × PyVal)} {x : String}
    {w : PyVal} :
    ∀ {d : List (String × PyVal)}, alookup gd x = some w →
    (∀ p ∈ gd, p.1 = x → p.2 = w) →
    alookup (dictUnion d gd) x = some w := by
  induction gd with
  | nil => intro d hs _; simp [alookup] at hs
  | cons kv rest ih =>
    intro d hs hall
    show alookup (dictUnion (dictSet d kv.1 kv.2) rest) x = some w
    rcases hr : alookup rest x with _ | w2
    · rw [dictUnion_alookup_none hr]
      by_cases hk : kv.1 = x
      · have h2 : kv.2 = w := hall kv (by simp) hk
        rw [hk, h2, alookup_dictSet_self]
      · simp only [alookup, hk, if_false, hr] at hs
        exact Option.noConfusion hs
    · have hw2 : w2 = w := by
        obtain ⟨p, hp, h1, h2⟩ := alookup_some_exists hr
        rw [← h2]
        exact hall p (by simp [hp]) h1
      subst hw2
      exact ih hr (fun p hp h1 => hall p (by simp [hp]) h1)

theorem foldl_mstep_alookup {ps : List MPattern} {s x : String} :
    ∀ {acc : List (String × PyVal)},
    (∀ p ∈ ps, ∀ gd, p s = some gd → alookup gd x = none) →
    alookup (ps.foldl (mstep s) acc) x = alookup acc x := by
  induction ps with
  | nil => intro acc _; rfl
  | cons p rest ih =>
    intro acc h
    rw [List.foldl_cons]
    rw [ih (fun q hq => h q (by simp [hq]))]
    unfold mstep
    rcases hp : p s with _ | gd
    · rfl
    · exact dictUnion_alookup_none (h p (by simp) gd hp)

theorem procEntry_fst (kv : String × PyVal) : (procEntry kv).1 = kv.1 := rfl

theorem convert_to_int_shape (v : PyVal) :
    intOrNull (convert_to_int v) = true := by
  cases v with
  | str s =>
    rcases h : pyToInt s with _ | n <;> simp [convert_to_int, h, intOrNull]
  | int n => rfl
  | bool b => rfl
  | null => rfl
  | list l => rfl
  | dict d => rfl

theorem intOrNull_not_dash {v : PyVal} (h : intOrNull v = true) :
    isDashOrEmpty v = false := by
  cases v with
  | str s => simp [intOrNull] at h
  | int n => rfl
  | bool b => simp [intOrNull] at h
  | null => rfl
  | list l => simp [intOrNull] at h
  | dict d => simp [intOrNull] at h

theorem convert_to_int_idem (v : PyVal) :
    convert_to_int (convert_to_int v) = convert_to_int v := by
  have h := convert_to_int_shape v
  rcases hv : convert_to_int v with s | n | b | _ | l | d <;>
    rw [hv] at h <;> first | rfl | simp [intOrNull] at h

theorem procEntry_snd_dash {k : String} {v : PyVal}
    (hd : isDashOrEmpty v = true) :
    procEntry (k, v) = (k, PyVal.null) := by
  unfold procEntry
  rw [if_pos hd]

theorem procEntry_snd_conv {k : String} {v : PyVal}
    (hd : isDashOrEmpty v = false) (hc : int_list.contains k = true) :
    procEntry (k, v) = (k, convert_to_int v) := by
  unfold procEntry
  rw [if_neg (by simp [hd]), if_pos hc]

theorem procEntry_snd_keep {k : String} {v : PyVal}
    (hd : isDashOrEmpty v = false) (hc : int_list.contains k = false) :
    procEntry (k, v) = (k, v) := by
  unfold procEntry
  rw [if_neg (by simp [hd]), if_neg (by rw [hc]; simp)]

theorem procEntry_null (k : String) :
    procEntry (k, PyVal.null) = (k, PyVal.null) := by
  by_cases hc : int_list.contains k = true
  · rw [procEntry_snd_conv (rfl : isDashOrEmpty PyVal.null = false) hc]
    rfl
  · rw [procEntry_snd_keep (rfl : isDashOrEmpty PyVal.null = false)
      (by simpa using hc)]

theorem procEntry_idem (kv : String × PyVal) :
    procEntry (procEntry kv) = procEntry kv := by
  obtain ⟨k, v⟩ := kv
  by_cases hd : isDashOrEmpty v = true
  · rw [procEntry_snd_dash hd, procEntry_null]
  · have hd' : isDashOrEmpty v = false := by simpa using hd
    by_cases hc : int_list.contains k = true
    · rw [procEntry_snd_conv hd' hc]
      have h2 : isDashOrEmpty (convert_to_int v) = false :=
        intOrNull_not_dash (convert_to_int_shape v)
      rw [procEntry_snd_conv h2 hc, convert_to_int_idem]
    · have hc' : int_list.contains k = false := by simpa using hc
      rw [procEntry_snd_keep hd' hc', procEntry_snd_keep hd' hc']

theorem alookup_map_procEntry {l : List (String × PyVal)} {k : String} :
    alookup (l.map procEntry) k =
      (alookup l k).map (fun v => (procEntry (k, v)).2) := by
  induction l with
  | nil => rfl
  | cons kv rest ih =>
    obtain ⟨k1, v1⟩ := kv
    by_cases hk : k1 = k
    · subst hk
      simp [List.map_cons, alookup, procEntry_fst]
    · simp only [List.map_cons, alookup, procEntry_fst, hk, if_false]
      exact ih

theorem alookup_mprocess_ne {ts : PyVal → PyVal × PyVal}
    {r : List (String × PyVal)} {k : String}
    (h1 : k ≠ "epoch") (h2 : k ≠ "epoch_utc") :
    alookup (mprocess ts r) k =
      (alookup r k).map (fun v => (procEntry (k, v)).2) := by
  unfold mprocess
  rcases hd : alookup (r.map procEntry) "date" with _ | d
  · exact alookup_map_procEntry
  · rw [alookup_dictSet_ne (Ne.symm h2), alookup_dictSet_ne (Ne.symm h1)]
    exact alookup_map_procEntry

end ModsecS

namespace ModsecS

theorem mem_map_procEntry_fixed {r : List (String × PyVal)}
    {p : String × PyVal} (hp : p ∈ r.map procEntry) :
    procEntry p = p := by
  obtain ⟨q, _, hq⟩ := List.mem_map.mp hp
  rw [← hq, procEntry_idem]

theorem mprocess_stable {ts : PyVal → PyVal × PyVal}
    {R : List (String × PyVal)} {d : PyVal}
    (hfix : ∀ p ∈ R, procEntry p = p)
    (hdate : alookup R "date" = some d)
    (hep : alookup R "epoch" = some ((ts d).1))
    (heu : alookup R "epoch_utc" = some ((ts d).2))
    (hallep : ∀ p ∈ R, p.1 = "epoch" → p.2 = (ts d).1)
    (halleu : ∀ p ∈ R, p.1 = "epoch_utc" → p.2 = (ts d).2) :
    mprocess ts R = R := by
  have hmapR : R.map procEntry = R := map_id_of_mem hfix
  unfold mprocess
  rw [hmapR, hdate]
  show dictSet (dictSet R "epoch" (ts d).1) "epoch_utc" (ts d).2 = R
  rw [dictSet_eq_self (by rw [hep]; rfl) hallep]
  rw [dictSet_eq_self (by rw [heu]; rfl) halleu]

theorem mprocess_idem {ts : PyVal → PyVal × PyVal}
    (hts : ∀ v, intOrNull (ts v).1 = true ∧ intOrNull (ts v).2 = true)
    (r : List (String × PyVal)) :
    mprocess ts (mprocess ts r) = mprocess ts r := by
  rcases hd : alookup (r.map procEntry) "date" with _ | d
  · have hR : mprocess ts r = r.map procEntry := by
      unfold mprocess; rw [hd]
    have hmapfix : (r.map procEntry).map procEntry = r.map procEntry :=
      map_id_of_mem (fun p hp => mem_map_procEntry_fixed hp)
    rw [hR]
    unfold mprocess
    rw [hmapfix, hd]
  · have hR : mprocess ts r =
        dictSet (dictSet (r.map procEntry) "epoch" (ts d).1)
          "epoch_utc" (ts d).2 := by
      unfold mprocess; rw [hd]
    have hfixR : ∀ p ∈ dictSet (dictSet (r.map procEntry) "epoch" (ts d).1)
        "epoch_utc" (ts d).2, procEntry p = p := by
      intro p hp
      rcases mem_dictSet hp with h1 | ⟨h1, _⟩
      · rw [h1]
        exact procEntry_snd_keep (intOrNull_not_dash (hts d).2) (by decide)
      · rcases mem_dictSet h1 with h2 | ⟨h2, _⟩
        · rw [h2]
          exact procEntry_snd_keep (intOrNull_not_dash (hts d).1) (by decide)
        · exact mem_map_procEntry_fixed h2
    have hdate : alookup (dictSet (dictSet (r.map procEntry) "epoch"
        (ts d).1) "epoch_utc" (ts d).2) "date" = some d := by
      rw [alookup_dictSet_ne (by decide), alookup_dictSet_ne (by decide)]
      exact hd
    have hep : alookup (dictSet (dictSet (r.map procEntry) "epoch"
        (ts d).1) "epoch_utc" (ts d).2) "epoch" = some ((ts d).1) := by
      rw [alookup_dictSet_ne (by decide)]
      exact alookup_dictSet_self _ _ _
    have heu : alookup (dictSet (dictSet (r.map procEntry) "epoch"
        (ts d).1) "epoch_utc" (ts d).2) "epoch_utc" = some ((ts d).2) :=
      alookup_dictSet_self _ _ _
    have hallep : ∀ p ∈ dictSet (dictSet (r.map procEntry) "epoch"
        (ts d).1) "epoch_utc" (ts d).2, p.1 = "epoch" → p.2 = (ts d).1 := by
      intro p hp h1
      rcases mem_dictSet hp with h2 | ⟨h2, _⟩
      · rw [h2] at h1
        have h1' : ("epoch_utc" : String) = "epoch" := h1
        exact absurd h1' (by decide)
      · rcases mem_dictSet h2 with h3 | ⟨h3, hne⟩
        · rw [h3]
        · exact absurd h1 hne
    have halleu : ∀ p ∈ dictSet (dictSet (r.map procEntry) "epoch"
        (ts d).1) "epoch_utc" (ts d).2, p.1 = "epoch_utc" →
        p.2 = (ts d).2 := by
      intro p hp h1
      rcases mem_dictSet hp with h2 | ⟨h2, hne⟩
      · rw [h2]
      · exact absurd h1 hne
    rw [hR]
    exact mprocess_stable hfixR hdate hep heu hallep halleu

theorem keysOf_map_procEntry (r : List (String × PyVal)) :
    keysOf (r.map procEntry) = keysOf r := by
  unfold keysOf
  rw [List.map_map]
  congr 1

theorem mprocess_keys (ts : PyVal → PyVal × PyVal)
    (r : List (String × PyVal)) :
    keysOf (mprocess ts r) =
      if containsKey r "date" then
        insert "epoch_utc" (insert "epoch" (keysOf r))
      else keysOf r := by
  have hiff : (alookup (r.map procEntry) "date").isSome =
      containsKey r "date" := by
    rw [alookup_map_procEntry]
    unfold containsKey
    rcases alookup r "date" with _ | v <;> rfl
  unfold mprocess
  rcases hd : alookup (r.map procEntry) "date" with _ | d
  · have hc : containsKey r "date" = false := by
      rw [← hiff, hd]; rfl
    rw [hc]
    simp only [Bool.false_eq_true, if_false]
    exact keysOf_map_procEntry r
  · have hc : containsKey r "date" = true := by
      rw [← hiff, hd]; rfl
    rw [hc]
    simp only [if_true]
    rw [keysOf_dictSet, keysOf_dictSet, keysOf_map_procEntry]

theorem mergeMatches_alookup_none {ps : List MPattern} {s x : String}
    (h : ∀ p ∈ ps, ∀ gd, p s = some gd → alookup gd x = none) :
    alookup (mergeMatches ps s) x = none := by
  unfold mergeMatches
  rw [foldl_mstep_alookup h]
  rfl

theorem mprocess_alookup_none {ts : PyVal → PyVal × PyVal}
    {r : List (String × PyVal)} {k : String}
    (h : alookup r k = none) (h1 : k ≠ "epoch") (h2 : k ≠ "epoch_utc") :
    alookup (mprocess ts r) k = none := by
  rw [alookup_mprocess_ne h1 h2, h]
  rfl

end ModsecS

open Ufwlog ModsecS

/-- Claim C1 (corrected): a whitespace-delimited token with more than one
`=` (and no bracket shape) is not ignored entirely by `Convert`: it
contributes no key/value field for the pieces of its split, but it does
contribute a flag field named by the entire token, with empty-string
value.  For a single such token `t`, the record is exactly
`[("type", ""), (t, "")]`. -/
theorem c1_multi_equals_flagged :
    (∀ (pre post : List String) (t : String),
      3 ≤ (pySplit '=' t).length → isBracketTok t = false →
      (alookup (Convert (pre ++ t :: post)) t).isSome = true) ∧
    (∀ t : String, 3 ≤ (pySplit '=' t).length → isBracketTok t = false →
      Convert [t] = [("type", ""), (t, "")]) := by
  constructor
  · intro pre post t h3 hbr
    unfold Convert
    rw [List.foldl_append, List.foldl_cons]
    apply foldl_convertStep_isSome
    rw [convertStep_eq_flag (by omega) hbr, alookup_dictSet_self]
    rfl
  · intro t h3 hbr
    have hne : t ≠ "type" := by
      intro he
      rw [he] at h3
      exact absurd h3 (by decide)
    have hl : alookup [("type", "")] t = none := by
      simp [alookup, Ne.symm hne]
    unfold Convert
    rw [List.foldl_cons, List.foldl_nil, convertStep_eq_flag (by omega) hbr]
    unfold dictSet
    rw [hl]
    simp

/-- Witness for C1 at the concrete token `a=b=c`. -/
theorem c1_multi_equals_flagged_witness :
    (alookup (Convert ([] ++ "a=b=c" :: [])) "a=b=c").isSome = true ∧
    Convert ["a=b=c"] = [("type", ""), ("a=b=c", "")] :=
  ⟨c1_multi_equals_flagged.1 [] [] "a=b=c" (by decide) (by decide),
   c1_multi_equals_flagged.2 "a=b=c" (by decide) (by decide)⟩

/-- Counterexample to claim C1 as stated: the line `a=b=c` does yield a
field derived from the multi-equals token (the flag field named by the
whole token), even though `a` and `b` are indeed absent. -/
theorem c1_multi_equals_cex :
    alookup (Convert (pySplit ' ' "a=b=c")) "a=b=c" = some "" ∧
    alookup (Convert (pySplit ' ' "a=b=c")) "a" = none ∧
    alookup (Convert (pySplit ' ' "a=b=c")) "b" = none :=
  ⟨rfl, rfl, rfl⟩

/-- Claim C10 (corrected): every `Convert` record contains a `type`
field; and provided no token writes the `type` key directly (no
`type=value` key/value token and no bare `type` flag token), its value
is the space-joined, bracket-stripped, left-trimmed accumulation of the
bracket-shaped tokens — the empty string when there are none. -/
theorem c10_type_field :
    (∀ lst : List String, (alookup (Convert lst) "type").isSome = true) ∧
    (∀ lst : List String, (∀ t ∈ lst, typeWriter t = false) →
      alookup (Convert lst) "type" =
        some (typeAccum "" (lst.filter isTypeAcc))) := by
  constructor
  · intro lst
    unfold Convert
    apply foldl_convertStep_isSome
    rfl
  · intro lst hw
    unfold Convert
    exact foldl_convertStep_type rfl hw

/-- Witness for C10 on the bracket-accumulation fixture from the spec. -/
theorem c10_type_field_witness :
    (alookup (Convert ["[tag", "application-multi]", "x=1", "foo"])
      "type").isSome = true ∧
    alookup (Convert ["[tag", "application-multi]", "x=1", "foo"])
      "type" = some (typeAccum ""
        (["[tag", "application-multi]", "x=1", "foo"].filter isTypeAcc)) ∧
    typeAccum "" (["[tag", "application-multi]", "x=1",
      "foo"].filter isTypeAcc) = "tag application-multi" :=
  ⟨c10_type_field.1 _, c10_type_field.2 _ (by decide), rfl⟩

/-- Counterexample to claim C10 as stated: the line `type=foo` contains
no bracket-shaped token at all, yet its record's `type` field is `foo`,
not the empty string — the `type=foo` token overwrote it. -/
theorem c10_type_field_cex :
    alookup (Convert (pySplit ' ' "type=foo")) "type" = some "foo" ∧
    (pySplit ' ' "type=foo").filter isTypeAcc = [] :=
  ⟨rfl, rfl⟩

/-- Claim C5 (corrected): in the multi-pattern pipeline, `_process`
rewrites every field whose value is exactly `-` or the empty string to
null (for fields other than the two epoch keys, which `_process` itself
overwrites afterwards); but the token-split pipeline's `_process` is the
identity, so dash/empty values pass through it unchanged. -/
theorem c5_null_normalization :
    (∀ (ts : PyVal → PyVal × PyVal) (r : List (String × PyVal))
      (k : String) (v : PyVal),
      alookup r k = some v → isDashOrEmpty v = true →
      k ≠ "epoch" → k ≠ "epoch_utc" →
      alookup (mprocess ts r) k = some PyVal.null) ∧
    (∀ l : List PyVal, uProcess l = l) := by
  constructor
  · intro ts r k v hv hd h1 h2
    have h3 : procEntry (k, v) = (k, PyVal.null) :=
      ModsecS.procEntry_snd_dash hd
    rw [ModsecS.alookup_mprocess_ne h1 h2, hv, Option.map_some', h3]
  · intro l
    rfl

/-- Witness for C5 on the spec's example record
`(host, -), (ident, ""), (status, "200")`. -/
theorem c5_null_normalization_witness :
    alookup (mprocess ts0
      [("host", PyVal.str "-"), ("ident", PyVal.str ""),
       ("status", PyVal.str "200")]) "host" = some PyVal.null ∧
    alookup (mprocess ts0
      [("host", PyVal.str "-"), ("ident", PyVal.str ""),
       ("status", PyVal.str "200")]) "ident" = some PyVal.null ∧
    mprocess ts0
      [("host", PyVal.str "-"), ("ident", PyVal.str ""),
       ("status", PyVal.str "200")] =
      [("host", PyVal.null), ("ident", PyVal.null),
       ("status", PyVal.int 200)] :=
  ⟨c5_null_normalization.1 ts0 _ "host" (PyVal.str "-") rfl rfl
      (by decide) (by decide),
   c5_null_normalization.1 ts0 _ "ident" (PyVal.str "") rfl rfl
      (by decide) (by decide),
   rfl⟩

/-- Counterexample to claim C5 as stated: the token-split pipeline's
emitted non-raw record keeps the empty-string values of the line `flag`
(field `flag` stays `""`, not null), because its `_process` returns the
data unchanged. -/
theorem c5_null_normalization_cex :
    ufwlogParse clsPlain false "flag" =
      [PyVal.dict [("type", PyVal.str ""), ("flag", PyVal.str "")]] := rfl

/-- Claim C7 (confirmed): in the merged record of the pattern loop, when
pattern `p` and a later pattern `q` both capture the field `x` with
different values and no pattern after `q` captures `x`, the merged value
of `x` is `q`'s value (left-to-right overwrite). -/
theorem c7_overwrite (ps1 ps2 ps3 : List MPattern) (p q : MPattern)
    (s x : String) (gp gq : List (String × PyVal)) (v w : PyVal)
    (_hp : p s = some gp) (_hpx : alookup gp x = some v)
    (hq : q s = some gq) (hqx : alookup gq x = some w)
    (hqall : ∀ kv ∈ gq, kv.1 = x → kv.2 = w)
    (_hvw : v ≠ w)
    (h3 : ∀ p2 ∈ ps3, ∀ gd, p2 s = some gd → alookup gd x = none) :
    alookup (mergeMatches (ps1 ++ (p :: ps2) ++ (q :: ps3)) s) x =
      some w := by
  unfold mergeMatches
  rw [List.foldl_append, List.foldl_append, List.foldl_cons]
  rw [ModsecS.foldl_mstep_alookup h3]
  unfold mstep
  rw [hq]
  exact ModsecS.dictUnion_alookup_last hqx hqall

/-- Witness for C7: two concrete single-capture patterns on one line;
the later pattern's value wins. -/
theorem c7_overwrite_witness :
    alookup (mergeMatches
      (([] : List MPattern) ++
        ([fun _ => some [("x", PyVal.str "1")]] : List MPattern) ++
        ([fun _ => some [("x", PyVal.str "2")]] : List MPattern))
      "L") "x" = some (PyVal.str "2") :=
  c7_overwrite [] [] [] (fun _ => some [("x", PyVal.str "1")])
    (fun _ => some [("x", PyVal.str "2")]) "L" "x"
    [("x", PyVal.str "1")] [("x", PyVal.str "2")]
    (PyVal.str "1") (PyVal.str "2") rfl rfl rfl rfl
    (by
      intro kv hkv h
      rw [List.mem_singleton] at hkv
      rw [hkv])
    (by
      intro h
      injection h with h2
      exact absurd h2 (by decide))
    (by
      intro p2 hp2
      simp at hp2)

/-- Claim C8 (confirmed): `_process` of the multi-pattern pipeline is
idempotent, for every timestamp helper whose two epoch values are
integers or null (the shape the external `jc.utils.timestamp`
produces). -/
theorem c8_process_idempotent (ts : PyVal → PyVal × PyVal)
    (hts : ∀ v, intOrNull (ts v).1 = true ∧ intOrNull (ts v).2 = true)
    (r : List (String × PyVal)) :
    mprocess ts (mprocess ts r) = mprocess ts r :=
  ModsecS.mprocess_idem hts r

/-- Witness for C8 on a record exercising the dash rewrite, the integer
coercion and the epoch path. -/
theorem c8_process_idempotent_witness :
    mprocess ts0 (mprocess ts0
      [("host", PyVal.str "-"), ("date", PyVal.str "x"),
       ("status", PyVal.str "200")]) =
      mprocess ts0
        [("host", PyVal.str "-"), ("date", PyVal.str "x"),
         ("status", PyVal.str "200")] :=
  c8_process_idempotent ts0 (fun _ => ⟨rfl, rfl⟩) _

/-- Claim C9 (confirmed): the key set of a `_process` output equals the
input's key set, plus exactly `epoch` and `epoch_utc` when a `date`
field is present. -/
theorem c9_process_frame (ts : PyVal → PyVal × PyVal)
    (r : List (String × PyVal)) :
    keysOf (mprocess ts r) =
      if containsKey r "date" then
        insert "epoch_utc" (insert "epoch" (keysOf r))
      else keysOf r :=
  ModsecS.mprocess_keys ts r

/-- Claim C2 (corrected): in the streaming multi-pattern parser, a
per-line failure is converted to an `{'unparsable': line}` record (and
the stream continues) when `ignore_exceptions` is set, and re-raised
(terminating the stream) otherwise; but in the token-split parser —
which has no resilient flag at all — a per-line failure such as a JSON
envelope without `message` is printed and swallowed: no record is
emitted for the line, nothing propagates, and the loop continues. -/
theorem c2_error_policy :
    (∀ (ps : List MPattern) (rawM ig : Bool) (ts : PyVal → PyVal × PyVal)
      (line : PyVal) (rest : List PyVal) (e : String),
      modsecLine ps rawM ts line = Except.error e →
      modsecRun ps rawM ig ts (line :: rest) =
        (if ig then
          prependRec [("unparsable", line)]
            (modsecRun ps rawM ig ts rest)
        else StreamOut.mk [] (some e))) ∧
    (∀ (cls : String → JEnv) (line : String) (rest : List String)
      (e : String),
      processLine cls line = Except.error e →
      ufwlogFold cls (line :: rest) = ufwlogFold cls rest) := by
  constructor
  · intro ps rawM ig ts line rest e he
    simp only [modsecRun, he]
  · intro cls line rest e he
    simp only [ufwlogFold, he]

/-- Witness for C2: a failing line in each parser (a non-string line in
the matcher stream; the `message`-less JSON object line in the
token-split parser). -/
theorem c2_error_policy_witness :
    modsecRun psNone13 false true ts0 (PyVal.int 0 :: []) =
      (if true then
        prependRec [("unparsable", PyVal.int 0)]
          (modsecRun psNone13 false true ts0 [])
      else StreamOut.mk [] (some lineTypeErr)) ∧
    ufwlogFold clsObjA (jline :: []) = ufwlogFold clsObjA [] :=
  ⟨c2_error_policy.1 psNone13 false true ts0 (PyVal.int 0) []
      lineTypeErr rfl,
   c2_error_policy.2 clsObjA jline [] "KeyError: message" rfl⟩

/-- Counterexample to claim C2 as stated: the token-split parser, fed
the JSON object line without `message`, emits no `unparsable` record
and propagates nothing — it returns an empty record list (in both raw
and processed modes), contradicting the claimed two-way policy. -/
theorem c2_error_policy_cex :
    ufwlogParse clsObjA false jline = [] ∧
    ufwlogParse clsObjA true jline = [] :=
  ⟨rfl, rfl⟩

/-- Claim C3 (corrected): a non-string element raises the line type
error inside the per-line `try` of the streaming parser, so it follows
the same resilient policy as any per-line failure: with
`ignore_exceptions` it becomes an `unparsable` record (carrying the
non-string element) and the stream continues; without it, the error
propagates — after any earlier records were already emitted. -/
theorem c3_nonstring_line (ps : List MPattern) (rawM : Bool)
    (ts : PyVal → PyVal × PyVal) (v : PyVal) (rest : List PyVal)
    (hv : isStr v = false) :
    modsecLine ps rawM ts v = Except.error lineTypeErr ∧
    modsecRun ps rawM true ts (v :: rest) =
      prependRec [("unparsable", v)] (modsecRun ps rawM true ts rest) ∧
    modsecRun ps rawM false ts (v :: rest) =
      StreamOut.mk [] (some lineTypeErr) := by
  have hline : modsecLine ps rawM ts v = Except.error lineTypeErr := by
    cases v with
    | str s => simp [isStr] at hv
    | int n => rfl
    | bool b => rfl
    | null => rfl
    | list l => rfl
    | dict d => rfl
  refine ⟨hline, ?_, ?_⟩
  · simp only [modsecRun, hline, if_true]
  · simp only [modsecRun, hline, Bool.false_eq_true, if_false]

/-- Witness for C3 at the non-string element `42`. -/
theorem c3_nonstring_line_witness :
    modsecLine psNone13 false ts0 (PyVal.int 42) =
      Except.error lineTypeErr ∧
    modsecRun psNone13 false true ts0 (PyVal.int 42 :: []) =
      prependRec [("unparsable", PyVal.int 42)]
        (modsecRun psNone13 false true ts0 []) ∧
    modsecRun psNone13 false false ts0 (PyVal.int 42 :: []) =
      StreamOut.mk [] (some lineTypeErr) :=
  c3_nonstring_line psNone13 false ts0 (PyVal.int 42) [] rfl

/-- Counterexample to claim C3 as stated: with resilient mode on, the
non-string element `42` is converted into an `unparsable` record rather
than being fatal, and a record had already been produced before it. -/
theorem c3_nonstring_line_cex :
    modsecRun psNone13 false true ts0 [PyVal.str "hello", PyVal.int 42] =
      StreamOut.mk [[], [("unparsable", PyVal.int 42)]] none := rfl

/-- Claim C4 (corrected): the matcher computes `apache_dict` (holding
`raw` with the trimmed line) but never merges it into the output; the
emitted record of a non-blank line has no `raw` field whenever no
pattern captures a group named `raw` — and no named group of the
thirteen source patterns is `raw`, so with the source's patterns the
field is always absent (in particular when zero patterns match). -/
theorem c4_raw_field :
    (sourcePatternGroups.all (fun g => !g.contains "raw")) = true ∧
    (∀ s : String, apache_dict s = [("raw", PyVal.str (pyStrip s))]) ∧
    (∀ (ps : List MPattern) (rawM : Bool) (ts : PyVal → PyVal × PyVal)
      (s : String), pyStrip s ≠ "" →
      (∀ p ∈ ps, ∀ gd, p s = some gd → alookup gd "raw" = none) →
      ∃ r, modsecLine ps rawM ts (PyVal.str s) = Except.ok (some r) ∧
        alookup r "raw" = none) := by
  refine ⟨by decide, fun s => rfl, ?_⟩
  intro ps rawM ts s hs hnone
  have hmerge : alookup (mergeMatches ps s) "raw" = none :=
    ModsecS.mergeMatches_alookup_none hnone
  refine ⟨if rawM then mergeMatches ps s
          else mprocess ts (mergeMatches ps s), ?_, ?_⟩
  · show (if pyStrip s = "" then Except.ok none
        else Except.ok (some (if rawM then mergeMatches ps s
          else mprocess ts (mergeMatches ps s)))) =
      Except.ok (some (if rawM then mergeMatches ps s
        else mprocess ts (mergeMatches ps s)))
    rw [if_neg hs]
  · by_cases hrm : rawM
    · rw [if_pos hrm]
      exact hmerge
    · rw [if_neg hrm]
      exact ModsecS.mprocess_alookup_none hmerge (by decide) (by decide)

/-- Witness for C4 at the non-blank line `hello` with the source's
patterns (none of which matches it). -/
theorem c4_raw_field_witness :
    ∃ r, modsecLine psNone13 false ts0 (PyVal.str "hello") =
        Except.ok (some r) ∧ alookup r "raw" = none :=
  c4_raw_field.2.2 psNone13 false ts0 "hello" (by decide)
    (by
      intro p hp gd hgd
      rw [List.eq_of_mem_replicate hp] at hgd
      exact Option.noConfusion hgd)

/-- Counterexample to claim C4 as stated: the non-blank line `hello`
(matched by zero patterns) is emitted as the empty record — there is no
`raw` field holding the trimmed line. -/
theorem c4_raw_field_cex :
    modsecRun psNone13 false false ts0 [PyVal.str "hello"] =
      StreamOut.mk [[]] none := rfl

/-- Claim C6 (corrected): the matcher pipeline yields zero records for a
whitespace-only string line; the token-split pipeline yields zero
records for empty lines and for whole-whitespace inputs, but (per the
counterexample) not for a whitespace-only line amid other data. -/
theorem c6_blank_lines :
    (∀ (ps : List MPattern) (rawM ig : Bool) (ts : PyVal → PyVal × PyVal)
      (s : String) (rest : List PyVal), pyStrip s = "" →
      modsecRun ps rawM ig ts (PyVal.str s :: rest) =
        modsecRun ps rawM ig ts rest) ∧
    (∀ data : String, "" ∉ ufwlogLines data) ∧
    (∀ (cls : String → JEnv) (raw : Bool) (data : String),
      has_data data = false → ufwlogParse cls raw data = []) := by
  refine ⟨?_, ?_, ?_⟩
  · intro ps rawM ig ts s rest hs
    have hline : modsecLine ps rawM ts (PyVal.str s) = Except.ok none := by
      show (if pyStrip s = "" then Except.ok none
          else Except.ok (some (if rawM then mergeMatches ps s
            else mprocess ts (mergeMatches ps s)))) =
        Except.ok none
      rw [if_pos hs]
    simp only [modsecRun, hline]
  · intro data
    unfold ufwlogLines
    by_cases h : has_data data
    · rw [if_pos h]
      intro hmem
      have h2 := List.of_mem_filter hmem
      simp at h2
    · rw [if_neg h]
      exact List.not_mem_nil ""
  · intro cls raw data h
    unfold ufwlogParse ufwlogLines
    rw [h]
    simp only [Bool.false_eq_true, if_false]
    cases raw <;> rfl

/-- Witness for C6: a one-space line in the matcher stream; an input
with an empty line; a whole-whitespace input for the token-split
parser. -/
theorem c6_blank_lines_witness :
    modsecRun psNone13 false false ts0 (PyVal.str " " :: []) =
      modsecRun psNone13 false false ts0 [] ∧
    "" ∉ ufwlogLines "a\n\nb" ∧
    ufwlogParse clsPlain false " \t" = [] :=
  ⟨c6_blank_lines.1 psNone13 false false ts0 " " [] rfl,
   c6_blank_lines.2.1 "a\n\nb",
   c6_blank_lines.2.2 clsPlain false " \t" rfl⟩

/-- Counterexample to claim C6 as stated: a whitespace-only line (three
spaces) following real data is not skipped by the token-split pipeline —
it produces a second record, `[("type", ""), ("", "")]`. -/
theorem c6_blank_lines_cex :
    ufwlogParse clsPlain false "a=1\n   " =
      [PyVal.dict [("type", PyVal.str ""), ("a", PyVal.str "1")],
       PyVal.dict [("type", PyVal.str ""), ("", PyVal.str "")]] := rfl
